import Mathlib

/-!
Shallow embedding of the query-resolution engine in
`src/scratchpad/__main__.py` (the "Secretary"/"Investigation" engine of
the bc-art repository), together with theorems settling the frozen
claims about its specification.

Modelling conventions:
* Python attribute dictionaries become association lists
  `List (String × AttrValue)`; `hasattr`/`getattr` become lookups.
* The Python class hierarchy `Thing` / `Album(Thing)` / `Track(Thing)`
  becomes the closed enumeration `ThingType` with `isinstance` as the
  subtype test.
* Fallible code returns `Option`: a `none` models a raised exception
  (`ValueError` from unpacking an empty attribute path in
  `Thing.satisfied`, `TypeError` from iterating a non-collection value,
  or any exception escaping a provider's `open`).
* A provider's `open` is modelled by a field `open'` returning
  `Option (List ProviderResult)`: `none` when the fetch raises, `some rs`
  for the fully-consumed lazy stream of yielded results (in
  `Secretary.request` the stream is always consumed whole by the
  `SentinelReadyResults` dict constructor).  The concrete providers in
  the source never mutate the entity, so `open'` yields results only.
* Generators become explicit lists; `Investigation.__iter__` becomes a
  fuel-indexed function returning the list of events yielded before
  termination or the first uncaught exception, paired with a `Bool` that
  is `true` exactly when iteration finished without an exception
  (exhausted fuel is conservatively reported as `false`).
* `Secretary.request` leaves its `thing` argument untouched in the
  source (the collected results dict is bound and then dropped), so the
  embedding returns, besides the unconditional `False`, the trace of the
  per-provider outcomes: one entry per provider whose `open` was
  invoked, `some` of the collected dict on success, `none` if that
  provider raised (aborting the loop).
* The `sentinels` field of `Secretary` and the `Sentinel` classes are
  never invoked by any code path the claims concern
  (`Secretary.request` builds `SentinelReadyResults` but passes it to no
  sentinel), so they are not modelled beyond the results dict itself.
-/

/-- A scalar attribute value (Python `Any` restricted to the value kinds
the scratchpad actually produces: strings and ints). -/
inductive Value where
  | str (s : String)
  | int (n : Int)
deriving DecidableEq, Repr

/-- The closed set of entity classes appearing in the source:
`Thing` and its subclasses `Album` and `Track`. -/
inductive ThingType where
  | thing
  | album
  | track
deriving DecidableEq, Repr

/-- Python `isinstance(x, cls)` on the class hierarchy above:
everything is a `Thing`; `Album` and `Track` are only themselves. -/
def isinstance : ThingType → ThingType → Bool
  | _, ThingType.thing => true
  | ThingType.album, ThingType.album => true
  | ThingType.track, ThingType.track => true
  | _, _ => false

mutual
/-- An entity (`Thing` in the source): its dynamic type plus its
currently-present attributes as an association list. -/
inductive Thing where
  | mk (ty : ThingType) (attrs : List (String × AttrValue))

/-- The value stored under one attribute: either a scalar or an ordered
collection of child `Thing`s (e.g. an `Album`'s `tracks`). -/
inductive AttrValue where
  | scalar (v : Value)
  | things (ts : List Thing)
end

/-- The dynamic type of an entity. -/
def Thing.ty : Thing → ThingType
  | Thing.mk ty _ => ty

/-- The attribute dictionary of an entity. -/
def Thing.attrs : Thing → List (String × AttrValue)
  | Thing.mk _ attrs => attrs

/-- First-match association-list lookup over an attribute dictionary. -/
def lookupAttr (a : String) : List (String × AttrValue) → Option AttrValue
  | [] => none
  | (k, v) :: rest => if k == a then some v else lookupAttr a rest

/-- Python `getattr(thing, a)`, as an `Option`. -/
def getattr (t : Thing) (a : String) : Option AttrValue :=
  lookupAttr a t.attrs

/-- Python `hasattr(thing, a)`. -/
def hasattr (t : Thing) (a : String) : Bool :=
  (getattr t a).isSome

/-- An attribute path: an ordered sequence of attribute names. -/
abbrev AttributePath := List String

/-- A query: a sequence of attribute paths. -/
abbrev AttributeQuery := List AttributePath

/-- The loop `for thing in own_value: if not thing.satisfied(*rest):
return False` / `return True` from `Thing.satisfied`, with exception
propagation: scans children left to right, short-circuiting on the first
unsatisfied child, and propagates (`none`) the first child exception. -/
def satAll (f : Thing → Option Bool) : List Thing → Option Bool
  | [] => some true
  | c :: cs =>
    match f c with
    | none => none
    | some false => some false
    | some true => satAll f cs

/-- `Thing.satisfied(*attr_path)` from the source.  `none` models an
exception: `ValueError` on an empty path (the unpacking
`own_attr, *rest = attr_path` fails), or a `TypeError` when a non-leaf
segment names a scalar attribute (the source would iterate a
non-collection value). -/
def Thing.satisfied : Thing → AttributePath → Option Bool
  | _, [] => none
  | t, a :: rest =>
    match getattr t a with
    | none => some false
    | some v =>
      match rest with
      | [] => some true
      | _ :: _ =>
        match v with
        | AttrValue.things ts => satAll (fun c => Thing.satisfied c rest) ts
        | AttrValue.scalar _ => none

/-- `Thing.filter_query`: the list comprehension
`[line for line in query if not self.satisfied(*line)]`, with the first
exception raised by `satisfied` propagating (`none`). -/
def Thing.filter_query (t : Thing) : AttributeQuery → Option AttributeQuery
  | [] => some []
  | l :: ls =>
    match Thing.satisfied t l with
    | none => none
    | some b =>
      match Thing.filter_query t ls with
      | none => none
      | some rest => some (if b then rest else l :: rest)

/-- `AttributeCapability`: a provider can supply `attr_path` for
entities of type `thing_type`. -/
structure AttributeCapability where
  thing_type : ThingType
  attr_path : AttributePath

/-- `AttributeCapability.matches`: instance check on the entity, then
exact elementwise path equality. -/
def AttributeCapability.matches (c : AttributeCapability) (t : Thing)
    (attr_path : AttributePath) : Bool :=
  if ¬ isinstance t.ty c.thing_type then false
  else attr_path == c.attr_path

/-- A single `(attribute path, value)` result yielded by a provider. -/
structure ProviderResult where
  attr_path : AttributePath
  value : Value

/-- The fully-consumed stream yielded by one `Provider.open` call. -/
abbrev Provision := List ProviderResult

/-- A provider: declared capabilities, the cheap `opens` predicate, and
the fetch `open` (field `open'`; `none` = the fetch raised). -/
structure Provider where
  capabilities : List AttributeCapability
  opens : Thing → Bool
  open' : Thing → Option Provision

/-- One top-level query line: the entity type it applies to and the
required attribute path. -/
structure SecretaryQueryLine where
  thing_type : ThingType
  attr_path : AttributePath

/-- The coordinator: the global query and the provider list.  (The
source's `sentinels` field is carried but never consulted by `request`,
so it is omitted here.) -/
structure Secretary where
  query : List SecretaryQueryLine
  providers : List Provider

/-- `SentinelReadyResults`: the dict built from provider results. -/
abbrev SentinelReadyResults := List (AttributePath × Value)

/-- Python dict insertion: overwriting an existing key keeps its
original position; a new key is appended at the end. -/
def dictInsert (m : SentinelReadyResults) (k : AttributePath) (v : Value) :
    SentinelReadyResults :=
  match m with
  | [] => [(k, v)]
  | (k', v') :: rest =>
    if k == k' then (k, v) :: rest else (k', v') :: dictInsert rest k v

/-- `Secretary.sentinel_results_from_provision`: builds the
`SentinelReadyResults` dict from the `(attr_path, value)` pairs of a
provision, in yield order, last write winning on duplicate paths. -/
def sentinel_results_from_provision (provision : Provision) : SentinelReadyResults :=
  provision.foldl (fun m r => dictInsert m r.attr_path r.value) []

/-- Helper `any_line_matches` from `Secretary.filter_providers`. -/
def any_line_matches (t : Thing) (query : AttributeQuery)
    (c : AttributeCapability) : Bool :=
  query.any (fun line => c.matches t line)

/-- Helper `any_capability_matches` from `Secretary.filter_providers`. -/
def any_capability_matches (t : Thing) (query : AttributeQuery)
    (p : Provider) : Bool :=
  p.capabilities.any (fun c => any_line_matches t query c)

/-- `Secretary.filter_providers`: keeps the providers having at least
one capability that matches (instance check + exact path equality) at
least one query line.  Note: the source never consults `opens` here. -/
def Secretary.filter_providers (s : Secretary) (t : Thing)
    (query : AttributeQuery) : List Provider :=
  s.providers.filter (fun p => any_capability_matches t query p)

/-- The loop body of `Secretary.request`: opens each retained provider
in order, collecting each provision into its results dict (which the
source then drops).  Output: the trace of per-provider outcomes (one
entry per provider whose `open` was invoked; `none` = that provider
raised, aborting the loop) and the returned value (`some false` — the
source returns `False` unconditionally — or `none` when an exception
escaped the loop). -/
def requestLoop (t : Thing) :
    List Provider → List (Option SentinelReadyResults) × Option Bool
  | [] => ([], some false)
  | p :: ps =>
    match p.open' t with
    | none => ([none], none)
    | some rs =>
      (some (sentinel_results_from_provision rs) :: (requestLoop t ps).1,
        (requestLoop t ps).2)

/-- `Secretary.request`: filters the providers against the query, opens
each retained one, collects (and discards) its results, and returns
`False`.  The entity is never modified. -/
def Secretary.request (s : Secretary) (t : Thing) (query : AttributeQuery) :
    List (Option SentinelReadyResults) × Option Bool :=
  requestLoop t (s.filter_providers t query)

/-- The list comprehension of `Secretary.get_top_level_query`:
`[q.attr_path for q in self.query if isinstance(thing, q.thing_type)]`. -/
def topLevelLines (t : Thing) : List SecretaryQueryLine → AttributeQuery
  | [] => []
  | l :: ls =>
    if isinstance t.ty l.thing_type then l.attr_path :: topLevelLines t ls
    else topLevelLines t ls

/-- `Secretary.get_top_level_query`. -/
def Secretary.get_top_level_query (s : Secretary) (t : Thing) : AttributeQuery :=
  topLevelLines t s.query

/-- The `Investigation` dataclass: a secretary, a current entity and the
query scoped to it. -/
structure Investigation where
  secretary : Secretary
  thing : Thing
  query : AttributeQuery

/-- `Secretary.investigate`: builds the `Investigation` for a root
entity from the type-matching top-level query lines.  It is a pure
constructor — nothing is validated and no provider is touched. -/
def Secretary.investigate (s : Secretary) (t : Thing) : Investigation :=
  Investigation.mk s t (s.get_top_level_query t)

/-- `itertools.groupby(·, lambda q: q[0])` composed with taking tails,
as done in `group_query`: groups maximal runs of consecutive lines
sharing a first segment, pairing the shared head with the tails. -/
def group_consecutive : AttributeQuery → List (String × AttributeQuery)
  | [] => []
  | q :: qs =>
    match group_consecutive qs with
    | [] => [(q.headD "", [q.tail])]
    | (k, g) :: rest =>
      if q.headD "" == k then (k, q.tail :: g) :: rest
      else (q.headD "", [q.tail]) :: (k, g) :: rest

/-- `group_query`: keeps the multi-segment lines and groups them with
`itertools.groupby` on the first segment (consecutive runs only),
yielding `(head, tails)` pairs. -/
def group_query (query : AttributeQuery) : List (String × AttributeQuery) :=
  group_consecutive (query.filter (fun q => q.length > 1))

/-- One resolution event yielded by `Investigation.__iter__`:
`(request result, entity, unsatisfied lines)`. -/
abbrev InvestigationResult := Bool × Thing × AttributeQuery

/-- Sequencing of generator runs: concatenates the event lists of the
runs in order, stopping at (and keeping the events of) the first run
that ended in an exception.  In the pure embedding, "the later runs
never execute" and "their events are not emitted" coincide. -/
def catUntilAbort : List (List InvestigationResult × Bool) →
    List InvestigationResult × Bool
  | [] => ([], true)
  | (evs, ok) :: rest =>
    if ok then (evs ++ (catUntilAbort rest).1, (catUntilAbort rest).2)
    else (evs, false)

/-- `Investigation.subs` for one `(head, sub_query)` group, with the
recursive iteration of a child investigation abstracted as `recur`: if
`self.thing.satisfied(own_attr)` (for a single segment: `hasattr`), run
the child investigations of every element of the head collection
depth-first in order; otherwise contribute nothing.  A scalar-valued
head models the `TypeError` the source would raise iterating it. -/
def subsRun (recur : Thing → AttributeQuery → List InvestigationResult × Bool)
    (t : Thing) (g : String × AttributeQuery) : List InvestigationResult × Bool :=
  match Thing.satisfied t [g.1] with
  | some true =>
    match getattr t g.1 with
    | some (AttrValue.things ts) => catUntilAbort (ts.map (fun c => recur c g.2))
    | _ => ([], false)
  | some false => ([], true)
  | none => ([], false)

/-- `Investigation.__iter__` (with `Investigation.subs` and
`Investigation.sub` inlined via `subsRun`), fuel-indexed.  For the
entity: filter the query, dispatch the unsatisfied lines via
`Secretary.request`, yield the event, then run the groups of the
*original* query in order.  `none` branches of `satisfied`/`request`
model uncaught exceptions: iteration stops, later events are not
emitted, and the flag is `false`. -/
def iterF (s : Secretary) : Nat → Thing → AttributeQuery →
    List InvestigationResult × Bool
  | 0, _, _ => ([], false)
  | fuel + 1, t, q =>
    match Thing.filter_query t q with
    | none => ([], false)
    | some filtered =>
      match (Secretary.request s t filtered).2 with
      | none => ([], false)
      | some b =>
        ((b, t, filtered) ::
            (catUntilAbort ((group_query q).map
              (subsRun (fun c q2 => iterF s fuel c q2) t))).1,
          (catUntilAbort ((group_query q).map
            (subsRun (fun c q2 => iterF s fuel c q2) t))).2)

/-- Iterating an `Investigation` object, fuel-indexed. -/
def Investigation.iter (inv : Investigation) (fuel : Nat) :
    List InvestigationResult × Bool :=
  iterF inv.secretary fuel inv.thing inv.query

/-! ### Shared helper lemmas -/

theorem satAll_eq_true_iff (f : Thing → Option Bool) (ts : List Thing) :
    satAll f ts = some true ↔ ∀ c ∈ ts, f c = some true := by
  induction ts with
  | nil => simp [satAll]
  | cons c cs ih =>
    simp only [satAll]
    cases h : f c with
    | none => simp [h]
    | some b =>
      cases b with
      | false => simp [h]
      | true => simp [h, ih]

theorem requestLoop_result (t : Thing) (ps : List Provider) :
    (requestLoop t ps).2 = none ∨ (requestLoop t ps).2 = some false := by
  induction ps with
  | nil => simp [requestLoop]
  | cons p ps ih =>
    simp only [requestLoop]
    cases h : p.open' t with
    | none => simp
    | some rs => simpa using ih

theorem requestLoop_length (t : Thing) (ps : List Provider)
    (h : (requestLoop t ps).2.isSome = true) :
    (requestLoop t ps).1.length = ps.length := by
  induction ps with
  | nil => simp [requestLoop]
  | cons p ps ih =>
    simp only [requestLoop] at h ⊢
    cases hp : p.open' t with
    | none => simp [hp] at h
    | some rs =>
      simp only [hp] at h ⊢
      simpa using ih (by simpa using h)

theorem filter_query_none_of_mem_nil (t : Thing) (q : AttributeQuery)
    (h : [] ∈ q) : Thing.filter_query t q = none := by
  induction q with
  | nil => simp at h
  | cons l ls ih =>
    rcases List.mem_cons.mp h with h1 | h1
    · subst h1
      simp [Thing.filter_query, Thing.satisfied]
    · simp only [Thing.filter_query]
      cases Thing.satisfied t l with
      | none => rfl
      | some b => rw [ih h1]

theorem filter_query_eq_filter (t : Thing) (q q' : AttributeQuery)
    (h : Thing.filter_query t q = some q') :
    q' = q.filter (fun l => Thing.satisfied t l == some false) := by
  induction q generalizing q' with
  | nil =>
    simp only [Thing.filter_query, Option.some.injEq] at h
    subst h
    rfl
  | cons l ls ih =>
    simp only [Thing.filter_query] at h
    cases hs : Thing.satisfied t l with
    | none => simp [hs] at h
    | some b =>
      rw [hs] at h
      cases hr : Thing.filter_query t ls with
      | none => simp [hr] at h
      | some rest =>
        rw [hr] at h
        simp only [Option.some.injEq] at h
        cases b with
        | false =>
          simp only [if_neg Bool.false_ne_true] at h
          subst h
          simp [List.filter, hs, ih rest hr]
        | true =>
          simp only [if_pos rfl] at h
          subst h
          simp [List.filter, hs, ih rest hr]

theorem filter_query_of_all_false (t : Thing) (q : AttributeQuery)
    (h : ∀ l ∈ q, Thing.satisfied t l = some false) :
    Thing.filter_query t q = some q := by
  induction q with
  | nil => rfl
  | cons l ls ih =>
    have h1 : Thing.satisfied t l = some false := h l (List.mem_cons_self l ls)
    have h2 : Thing.filter_query t ls = some ls :=
      ih (fun x hx => h x (List.mem_cons_of_mem l hx))
    simp [Thing.filter_query, h1, h2]

theorem catUntilAbort_ok (l : List (List InvestigationResult × Bool))
    (h : (catUntilAbort l).2 = true) :
    (catUntilAbort l).1 = (l.map Prod.fst).flatten ∧ ∀ x ∈ l, x.2 = true := by
  induction l with
  | nil => simp [catUntilAbort]
  | cons x xs ih =>
    obtain ⟨evs, ok⟩ := x
    cases ok with
    | false => simp [catUntilAbort] at h
    | true =>
      cases hc : catUntilAbort xs with
      | mk evs2 ok2 =>
        rw [show catUntilAbort ((evs, true) :: xs) = (evs ++ evs2, ok2) from by
          simp [catUntilAbort, hc]] at h ⊢
        obtain ⟨ih1, ih2⟩ := ih (by rw [hc]; exact h)
        rw [hc] at ih1
        refine ⟨by simp only [List.map_cons, List.flatten_cons]; rw [← ih1], ?_⟩
        intro y hy
        rcases List.mem_cons.mp hy with h1 | h1
        · subst h1; rfl
        · exact ih2 y h1

theorem catUntilAbort_mem (l : List (List InvestigationResult × Bool))
    (ev : InvestigationResult) (h : ev ∈ (catUntilAbort l).1) :
    ∃ x ∈ l, ev ∈ x.1 := by
  induction l with
  | nil => simp [catUntilAbort] at h
  | cons x xs ih =>
    obtain ⟨evs, ok⟩ := x
    cases ok with
    | false =>
      rw [show catUntilAbort ((evs, false) :: xs) = (evs, false) from by
        simp [catUntilAbort]] at h
      exact ⟨(evs, false), List.mem_cons_self _ _, h⟩
    | true =>
      cases hc : catUntilAbort xs with
      | mk evs2 ok2 =>
        rw [show catUntilAbort ((evs, true) :: xs) = (evs ++ evs2, ok2) from by
          simp [catUntilAbort, hc]] at h
        rcases List.mem_append.mp h with h1 | h1
        · exact ⟨(evs, true), List.mem_cons_self _ _, h1⟩
        · obtain ⟨y, hy, hev⟩ := ih (by rw [hc]; exact h1)
          exact ⟨y, List.mem_cons_of_mem _ hy, hev⟩

theorem topLevelLines_eq (t : Thing) (ls : List SecretaryQueryLine) :
    topLevelLines t ls =
      (ls.filter (fun l => isinstance t.ty l.thing_type)).map
        (fun l => l.attr_path) := by
  induction ls with
  | nil => rfl
  | cons l ls ih =>
    simp only [topLevelLines, List.filter]
    cases h : isinstance t.ty l.thing_type with
    | false => simpa using ih
    | true => simpa using ih

theorem satisfied_singleton (t : Thing) (a : String) :
    Thing.satisfied t [a] = some (hasattr t a) := by
  cases h : getattr t a <;> simp [Thing.satisfied, hasattr, h]

theorem satisfied_cons_none (t : Thing) (a : String) (tail : AttributePath)
    (h : getattr t a = none) :
    Thing.satisfied t (a :: tail) = some false := by
  cases tail <;> simp [Thing.satisfied, h]

theorem satisfied_cons_things (t : Thing) (a b : String) (rest : AttributePath)
    (ts : List Thing) (h : getattr t a = some (AttrValue.things ts)) :
    Thing.satisfied t (a :: b :: rest) =
      satAll (fun c => Thing.satisfied c (b :: rest)) ts := by
  simp [Thing.satisfied, h]

theorem request_result_false (s : Secretary) (t : Thing) (q : AttributeQuery)
    (b : Bool) (h : (s.request t q).2 = some b) : b = false := by
  rcases requestLoop_result t (s.filter_providers t q) with h1 | h1
  · rw [Secretary.request, h1] at h; cases h
  · rw [Secretary.request, h1] at h; exact (Option.some.inj h).symm

theorem subsRun_mem
    (recur : Thing → AttributeQuery → List InvestigationResult × Bool)
    (t : Thing) (g : String × AttributeQuery) (ev : InvestigationResult)
    (h : ev ∈ (subsRun recur t g).1) :
    ∃ ts, getattr t g.1 = some (AttrValue.things ts) ∧
      ∃ c ∈ ts, ev ∈ (recur c g.2).1 := by
  rw [subsRun, satisfied_singleton t g.1] at h
  cases hb : hasattr t g.1 with
  | false => rw [hb] at h; simp at h
  | true =>
    rw [hb] at h
    cases hg : getattr t g.1 with
    | none => rw [hg] at h; simp at h
    | some v =>
      rw [hg] at h
      cases v with
      | scalar _ => simp at h
      | things ts =>
        obtain ⟨x, hx, hev⟩ := catUntilAbort_mem _ ev (by simpa using h)
        obtain ⟨c, hc, rfl⟩ := List.mem_map.mp hx
        exact ⟨ts, rfl, c, hc, hev⟩

theorem subsRun_ok
    (recur : Thing → AttributeQuery → List InvestigationResult × Bool)
    (t : Thing) (g : String × AttributeQuery)
    (hok : (subsRun recur t g).2 = true) :
    (subsRun recur t g).1 =
      (match getattr t g.1 with
        | some (AttrValue.things ts) => ts.flatMap (fun c => (recur c g.2).1)
        | _ => ([] : List InvestigationResult)) := by
  rw [subsRun, satisfied_singleton t g.1] at hok ⊢
  cases hb : hasattr t g.1 with
  | false =>
    have hg : getattr t g.1 = none := by
      rw [hasattr] at hb
      rcases hgo : getattr t g.1 with _ | v
      · rfl
      · rw [hgo] at hb; simp at hb
    rw [hg]
  | true =>
    rw [hb] at hok
    cases hg : getattr t g.1 with
    | none => simp [hasattr, hg] at hb
    | some v =>
      rw [hg] at hok
      cases v with
      | scalar w => simp at hok
      | things ts =>
        have hca := catUntilAbort_ok (ts.map (fun c => recur c g.2))
          (by simpa using hok)
        show (catUntilAbort (ts.map (fun c => recur c g.2))).1 =
          ts.flatMap (fun c => (recur c g.2).1)
        rw [hca.1, List.flatMap_def, List.map_map]
        rfl

theorem group_consecutive_flat (l : AttributeQuery) (h : ∀ q ∈ l, q ≠ []) :
    (group_consecutive l).flatMap (fun g => g.2.map (fun tail => g.1 :: tail)) =
      l := by
  induction l with
  | nil => rfl
  | cons q qs ih =>
    have hq : q ≠ [] := h q (List.mem_cons_self q qs)
    have hqs : ∀ x ∈ qs, x ≠ [] := fun x hx => h x (List.mem_cons_of_mem q hx)
    have hhead : q.headD "" :: q.tail = q := by
      cases q with
      | nil => exact absurd rfl hq
      | cons a t => rfl
    have ihq := ih hqs
    cases hg : group_consecutive qs with
    | nil =>
      have hqe : qs = [] := by rw [hg] at ihq; simpa using ihq.symm
      subst hqe
      rw [show group_consecutive [q] = [(q.headD "", [q.tail])] from by
        simp only [group_consecutive]]
      simp only [List.flatMap_cons, List.flatMap_nil, List.map_cons,
        List.map_nil, List.append_nil]
      rw [hhead]
    | cons kg rest =>
      obtain ⟨k, g⟩ := kg
      rw [hg] at ihq
      cases hk : q.headD "" == k with
      | true =>
        have hkeq : q.headD "" = k := beq_iff_eq.mp hk
        rw [show group_consecutive (q :: qs) = (k, q.tail :: g) :: rest from by
          simp only [group_consecutive, hg, hk, if_true]]
        rw [List.flatMap_cons] at ihq ⊢
        rw [List.map_cons, List.cons_append, ← hkeq, hhead, hkeq, ihq]
      | false =>
        rw [show group_consecutive (q :: qs) =
            (q.headD "", [q.tail]) :: (k, g) :: rest from by
          simp only [group_consecutive, hg, hk, Bool.false_eq_true, if_false]]
        rw [List.flatMap_cons, ihq]
        simp only [List.map_cons, List.map_nil, List.singleton_append,
          List.cons_append, List.nil_append]
        rw [hhead]

theorem group_consecutive_chain (l : AttributeQuery) :
    List.Chain' (fun a b => a.1 ≠ b.1) (group_consecutive l) := by
  induction l with
  | nil => simp [group_consecutive]
  | cons q qs ih =>
    cases hg : group_consecutive qs with
    | nil =>
      rw [show group_consecutive (q :: qs) = [(q.headD "", [q.tail])] from by
        simp only [group_consecutive, hg]]
      simp
    | cons kg rest =>
      obtain ⟨k, g⟩ := kg
      rw [hg] at ih
      cases hk : q.headD "" == k with
      | true =>
        rw [show group_consecutive (q :: qs) = (k, q.tail :: g) :: rest from by
          simp only [group_consecutive, hg, hk, if_true]]
        rw [List.chain'_cons'] at ih ⊢
        exact ⟨ih.1, ih.2⟩
      | false =>
        rw [show group_consecutive (q :: qs) =
            (q.headD "", [q.tail]) :: (k, g) :: rest from by
          simp only [group_consecutive, hg, hk, Bool.false_eq_true, if_false]]
        rw [List.chain'_cons]
        refine ⟨fun hEq => ?_, ih⟩
        rw [show ((q.headD "", [q.tail]) : String × AttributeQuery).1 =
          q.headD "" from rfl] at hEq
        rw [show ((k, g) : String × AttributeQuery).1 = k from rfl] at hEq
        rw [hEq] at hk
        simp at hk

theorem group_consecutive_groups_ne_nil (l : AttributeQuery) :
    ∀ g ∈ group_consecutive l, g.2 ≠ [] := by
  induction l with
  | nil => simp [group_consecutive]
  | cons q qs ih =>
    cases hg : group_consecutive qs with
    | nil =>
      rw [show group_consecutive (q :: qs) = [(q.headD "", [q.tail])] from by
        simp only [group_consecutive, hg]]
      simp
    | cons kg rest =>
      obtain ⟨k, g⟩ := kg
      rw [hg] at ih
      cases hk : q.headD "" == k with
      | true =>
        rw [show group_consecutive (q :: qs) = (k, q.tail :: g) :: rest from by
          simp only [group_consecutive, hg, hk, if_true]]
        intro x hx
        rcases List.mem_cons.mp hx with h1 | h1
        · subst h1; simp
        · exact ih x (List.mem_cons_of_mem _ h1)
      | false =>
        rw [show group_consecutive (q :: qs) =
            (q.headD "", [q.tail]) :: (k, g) :: rest from by
          simp only [group_consecutive, hg, hk, Bool.false_eq_true, if_false]]
        intro x hx
        rcases List.mem_cons.mp hx with h1 | h1
        · subst h1; simp
        · exact ih x h1

/-! ### Concrete entities, providers and coordinators used in witnesses
and counterexamples -/

/-- A track entity with its `duration` attribute set. -/
def exTrack : Thing :=
  Thing.mk ThingType.track [("duration", AttrValue.scalar (Value.int 413))]

/-- An album entity whose `tracks` collection holds one track. -/
def exAlbum : Thing :=
  Thing.mk ThingType.album [("tracks", AttrValue.things [exTrack])]

/-- An album entity with no attributes present. -/
def exAlbumBare : Thing := Thing.mk ThingType.album []

/-- The capability `(Album, ("name",))`. -/
def exCapAlbumName : AttributeCapability :=
  AttributeCapability.mk ThingType.album ["name"]

/-- A provider for `(Album, ("name",))` whose fetch yields
`(("name",), "X")`. -/
def exProvName : Provider :=
  Provider.mk [exCapAlbumName] (fun _ => true)
    (fun _ => some [ProviderResult.mk ["name"] (Value.str "X")])

/-- A provider for `(Album, ("name",))` whose `opens` is always false
but whose fetch would yield a result. -/
def exProvClosed : Provider :=
  Provider.mk [exCapAlbumName] (fun _ => false)
    (fun _ => some [ProviderResult.mk ["name"] (Value.str "Y")])

/-- A provider for `(Album, ("name",))` whose fetch raises. -/
def exProvRaising : Provider :=
  Provider.mk [exCapAlbumName] (fun _ => true) (fun _ => none)

/-- A coordinator with no query lines and no providers. -/
def exSecNoProv : Secretary := Secretary.mk [] []

/-- A coordinator holding only the yielding name provider. -/
def exSecName : Secretary := Secretary.mk [] [exProvName]

/-- A coordinator holding only the `opens`-false provider. -/
def exSecClosed : Secretary := Secretary.mk [] [exProvClosed]

/-- A coordinator holding the raising provider followed by an
independently-matching healthy provider. -/
def exSecRaise : Secretary := Secretary.mk [] [exProvRaising, exProvName]

/-- A coordinator whose single top-level line is declared for `Track`. -/
def exSecTrackLine : Secretary :=
  Secretary.mk [SecretaryQueryLine.mk ThingType.track ["duration"]] []

/-- A coordinator whose single top-level line has an empty path. -/
def exSecEmptyPath : Secretary :=
  Secretary.mk [SecretaryQueryLine.mk ThingType.album []] []

/-- A coordinator with an `(Album, ("name",))` line and no providers. -/
def exSecAlbumName : Secretary :=
  Secretary.mk [SecretaryQueryLine.mk ThingType.album ["name"]] []

/-- Same query as `exSecAlbumName` but with a provider installed. -/
def exSecAlbumNameProv : Secretary :=
  Secretary.mk [SecretaryQueryLine.mk ThingType.album ["name"]] [exProvName]

/-! ### Claims -/

/-- Claim C1 (the code evaluated at the failing input): dispatching the
query `[["name"]]` on a bare album with a provider whose `open` yields
`(("name",), "X")` opens the provider and collects the yielded pair into
the results dict (visible in the trace), but `request` returns `False`
and the entity still lacks the `name` attribute afterwards — the source
drops the collected dict and never merges provider results into the
entity, contrary to the claimed merge step. -/
theorem c1_request_discards_results :
    Secretary.request exSecName exAlbumBare [["name"]] =
      ([some [(["name"], Value.str "X")]], some false) ∧
    hasattr exAlbumBare "name" = false ∧
    Thing.satisfied exAlbumBare ["name"] = some false :=
  ⟨rfl, rfl, rfl⟩

/-- Claim C2: for a single-segment path, `satisfied` is exactly
attribute presence; for a multi-segment path whose head attribute is
absent or names a collection, `satisfied` holds exactly when the head is
present and every child of that collection satisfies the tail. -/
theorem c2_satisfied_characterisation (t : Thing) (a : String)
    (tail : AttributePath) (ts : List Thing)
    (hcoll : getattr t a = none ∨ getattr t a = some (AttrValue.things ts))
    (htail : tail ≠ []) :
    Thing.satisfied t [a] = some (hasattr t a) ∧
    (Thing.satisfied t (a :: tail) = some true ↔
      hasattr t a = true ∧ ∀ c ∈ ts, Thing.satisfied c tail = some true) := by
  refine ⟨satisfied_singleton t a, ?_⟩
  cases tail with
  | nil => exact absurd rfl htail
  | cons b rest =>
    rcases hcoll with hg | hg
    · rw [satisfied_cons_none t a (b :: rest) hg]
      simp [hasattr, hg]
    · rw [satisfied_cons_things t a b rest ts hg, satAll_eq_true_iff]
      simp [hasattr, hg]

/-- Witness for C2 at a concrete album with one track. -/
theorem c2_satisfied_characterisation_witness :
    Thing.satisfied exAlbum ["tracks"] = some (hasattr exAlbum "tracks") ∧
    (Thing.satisfied exAlbum ["tracks", "duration"] = some true ↔
      hasattr exAlbum "tracks" = true ∧
      ∀ c ∈ [exTrack], Thing.satisfied c ["duration"] = some true) :=
  c2_satisfied_characterisation exAlbum "tracks" ["duration"] [exTrack]
    (Or.inr rfl) (by decide)

/-- Claim C3 (counterexample): a provider whose `opens` is false for the
entity but which declares a capability equal to a query line is retained
by `filter_providers`, and its `open` is invoked by `request` (the
invocation trace has length 1): dispatch never consults `opens`. -/
theorem c3_counterexample :
    exProvClosed.opens exAlbumBare = false ∧
    Secretary.filter_providers exSecClosed exAlbumBare [["name"]] =
      [exProvClosed] ∧
    (Secretary.request exSecClosed exAlbumBare [["name"]]).1.length = 1 :=
  ⟨rfl, rfl, rfl⟩

/-- Claim C3 (amended): dispatch retains exactly the providers having at
least one declared capability that matches the entity (instance check)
and exactly equals some query line — `opens` is never consulted — and,
when no retained provider raises, `request` invokes `open` on exactly
the retained providers (one trace entry per retained provider). -/
theorem c3_dispatch_by_capability_only (s : Secretary) (t : Thing)
    (q : AttributeQuery) (p : Provider) :
    (p ∈ s.filter_providers t q ↔
      p ∈ s.providers ∧
        ∃ c ∈ p.capabilities, ∃ l ∈ q, c.matches t l = true) ∧
    ((s.request t q).2.isSome = true →
      (s.request t q).1.length = (s.filter_providers t q).length) := by
  constructor
  · rw [Secretary.filter_providers, List.mem_filter]
    simp only [any_capability_matches, any_line_matches, List.any_eq_true]
  · intro h
    exact requestLoop_length t (s.filter_providers t q) h

/-- Witness for C3's amended theorem at a concrete dispatch. -/
theorem c3_dispatch_by_capability_only_witness :
    (Secretary.request exSecClosed exAlbumBare [["name"]]).1.length =
      (Secretary.filter_providers exSecClosed exAlbumBare [["name"]]).length :=
  (c3_dispatch_by_capability_only exSecClosed exAlbumBare [["name"]]
    exProvClosed).2 rfl

/-- Claim C4 (counterexample): two multi-segment lines sharing the head
`"a"` separated by a `"b"`-headed line produce two distinct `"a"`
groups — `group_query` groups only consecutive runs, refuting "two
multi-segment lines sharing the same head always land in the same
single group even when they are not adjacent". -/
theorem c4_counterexample :
    group_query [["a", "x"], ["b", "y"], ["a", "z"]] =
      [("a", [["x"]]), ("b", [["y"]]), ("a", [["z"]])] ∧
    ((group_query [["a", "x"], ["b", "y"], ["a", "z"]]).filter
        (fun g => g.1 == "a")).length = 2 :=
  ⟨rfl, rfl⟩

/-- Claim C4 (amended): `group_query` partitions the multi-segment lines
(single-segment lines excluded) into maximal runs of consecutive lines
sharing a head: every group is non-empty, adjacent groups have distinct
heads, and re-attaching each group's head to its tails, in order,
recovers exactly the subsequence of multi-segment lines of the query;
non-adjacent lines with an equal head therefore fall into separate
groups. -/
theorem c4_group_query_consecutive (query : AttributeQuery) :
    (group_query query).flatMap (fun g => g.2.map (fun tail => g.1 :: tail)) =
      query.filter (fun q => q.length > 1) ∧
    List.Chain' (fun a b => a.1 ≠ b.1) (group_query query) ∧
    ∀ g ∈ group_query query, g.2 ≠ [] := by
  refine ⟨?_, group_consecutive_chain _, group_consecutive_groups_ne_nil _⟩
  apply group_consecutive_flat
  intro x hx hnil
  have hlen := (List.mem_filter.mp hx).2
  subst hnil
  simp at hlen

/-- Claim C5 (counterexample): with two independently-matching providers
of which the first one's `open` raises, `request` aborts: the trace
shows only the first provider was opened (and raised) and the overall
result is the propagated exception — the second matching provider never
runs, refuting "the error is caught at that provider's boundary and the
second matching provider still runs". -/
theorem c5_counterexample :
    (Secretary.filter_providers exSecRaise exAlbumBare [["name"]]).length = 2 ∧
    Secretary.request exSecRaise exAlbumBare [["name"]] = ([none], none) :=
  ⟨rfl, rfl⟩

/-- Claim C5 (amended): an exception raised inside the first retained
provider's `open` is caught nowhere in `request`: it propagates to the
caller (result `none`), the loop stops at that provider, and no
subsequent retained provider is invoked (the trace holds exactly the one
failed attempt). -/
theorem c5_provider_error_propagates (s : Secretary) (t : Thing)
    (q : AttributeQuery) (p : Provider) (rest : List Provider)
    (hf : s.filter_providers t q = p :: rest) (he : p.open' t = none) :
    s.request t q = ([none], none) := by
  rw [Secretary.request, hf]
  simp [requestLoop, he]

/-- Witness for C5's amended theorem at the concrete raising provider. -/
theorem c5_provider_error_propagates_witness :
    Secretary.request exSecRaise exAlbumBare [["name"]] = ([none], none) :=
  c5_provider_error_propagates exSecRaise exAlbumBare [["name"]]
    exProvRaising [exProvName] rfl rfl

/-- Claim C6: one Resolver step that completes without an exception:
grouping is computed from the *original* query `q` (not the unsatisfied
subset `filtered`), and for each `(head, child_queries)` group, if the
head names a present collection, exactly one child investigation per
element of that collection runs with `child_queries` as its starting
query and their events are appended depth-first in collection order; an
absent head contributes no further events. -/
theorem c6_resolver_recursion (s : Secretary) (fuel : Nat) (t : Thing)
    (q filtered : AttributeQuery) (b : Bool)
    (hf : Thing.filter_query t q = some filtered)
    (hr : (s.request t filtered).2 = some b)
    (hok : (iterF s (fuel + 1) t q).2 = true) :
    (iterF s (fuel + 1) t q).1 =
      (b, t, filtered) :: (group_query q).flatMap (fun g =>
        match getattr t g.1 with
        | some (AttrValue.things ts) =>
          ts.flatMap (fun c => (iterF s fuel c g.2).1)
        | _ => []) := by
  simp only [iterF, hf, hr] at hok ⊢
  have hca := catUntilAbort_ok _ hok
  rw [hca.1, List.map_map, List.flatMap_def]
  congr 1
  congr 1
  apply List.map_congr_left
  intro g hgmem
  have hgok : (subsRun (fun c q2 => iterF s fuel c q2) t g).2 = true :=
    hca.2 _ (List.mem_map_of_mem _ hgmem)
  exact subsRun_ok _ t g hgok

/-- Witness for C6: a two-level investigation on a concrete album. -/
theorem c6_resolver_recursion_witness :
    (iterF exSecNoProv 2 exAlbum [["name"], ["tracks", "duration"]]).1 =
      (false, exAlbum, [["name"]]) ::
        (group_query [["name"], ["tracks", "duration"]]).flatMap (fun g =>
          match getattr exAlbum g.1 with
          | some (AttrValue.things ts) =>
            ts.flatMap (fun c => (iterF exSecNoProv 1 c g.2).1)
          | _ => []) :=
  c6_resolver_recursion exSecNoProv 1 exAlbum
    [["name"], ["tracks", "duration"]] [["name"]] false rfl rfl rfl

/-- Claim C7: `filter_query` returns the order-preserving subsequence of
query lines not satisfied by the entity (a pure function of the entity
and the query — the embedding cannot mutate its input), and it is
idempotent: filtering its own output against the same entity returns it
unchanged. -/
theorem c7_filter_unsatisfied (t : Thing) (q q2 : AttributeQuery)
    (h : Thing.filter_query t q = some q2) :
    q2.Sublist q ∧
    q2 = q.filter (fun l => Thing.satisfied t l == some false) ∧
    Thing.filter_query t q2 = some q2 := by
  have h2 := filter_query_eq_filter t q q2 h
  refine ⟨h2 ▸ List.filter_sublist q, h2, ?_⟩
  apply filter_query_of_all_false
  intro l hl
  rw [h2] at hl
  exact eq_of_beq (List.mem_filter.mp hl).2

/-- Witness for C7 at a concrete album and query. -/
theorem c7_filter_unsatisfied_witness :
    ([["name"]] : AttributeQuery).Sublist [["tracks"], ["name"]] ∧
    ([["name"]] : AttributeQuery) =
      ([["tracks"], ["name"]] : AttributeQuery).filter
        (fun l => Thing.satisfied exAlbum l == some false) ∧
    Thing.filter_query exAlbum [["name"]] = some [["name"]] :=
  c7_filter_unsatisfied exAlbum [["tracks"], ["name"]] [["name"]] rfl

/-- Claim C8 (counterexample): `investigate` rejects nothing eagerly.  A
top-level line declared for `Track` is silently dropped when the root is
an `Album` (`investigate` returns normally with an empty initial query;
no error), and a line with an empty attribute path is accepted by
`investigate` unchanged — the resulting error (modelled as the `none` /
abort outcome) occurs only once the investigation is iterated, inside
the filtering step, producing no events. -/
theorem c8_counterexample :
    Secretary.investigate exSecTrackLine exAlbumBare =
      Investigation.mk exSecTrackLine exAlbumBare [] ∧
    Secretary.investigate exSecEmptyPath exAlbumBare =
      Investigation.mk exSecEmptyPath exAlbumBare [[]] ∧
    iterF exSecEmptyPath 5 exAlbumBare [[]] = ([], false) :=
  ⟨rfl, rfl, rfl⟩

/-- Claim C8 (amended): `investigate` performs no validation at all: it
always returns the investigation built from the instance-filtered query;
type-mismatched lines are silently dropped (when nothing matches, the
initial query is just empty — no error is ever raised for a mismatch);
and a query containing an empty path passes `investigate` — the
resulting error occurs only during iteration, in the
`filter_query`/`satisfied` step, which still precedes any provider
dispatch at that entity (no event is emitted and no provider opened). -/
theorem c8_no_eager_validation (s : Secretary) (t : Thing)
    (q : AttributeQuery) (fuel : Nat) :
    s.investigate t = Investigation.mk s t (s.get_top_level_query t) ∧
    ((∀ l ∈ s.query, isinstance t.ty l.thing_type = false) →
      s.get_top_level_query t = []) ∧
    ([] ∈ q →
      Thing.filter_query t q = none ∧ iterF s fuel t q = ([], false)) := by
  refine ⟨rfl, ?_, ?_⟩
  · intro hmm
    rw [Secretary.get_top_level_query, topLevelLines_eq,
      List.filter_eq_nil_iff.mpr ?_]
    · rfl
    · intro l hl
      simp [hmm l hl]
  · intro hq
    have hfq := filter_query_none_of_mem_nil t q hq
    refine ⟨hfq, ?_⟩
    cases fuel with
    | zero => rfl
    | succ n => simp [iterF, hfq]

/-- Witness for C8's amended theorem at the concrete mismatching
coordinator and the empty-path query. -/
theorem c8_no_eager_validation_witness :
    Secretary.investigate exSecTrackLine exAlbumBare =
      Investigation.mk exSecTrackLine exAlbumBare
        (Secretary.get_top_level_query exSecTrackLine exAlbumBare) ∧
    Secretary.get_top_level_query exSecTrackLine exAlbumBare = [] ∧
    (Thing.filter_query exAlbumBare [[]] = none ∧
      iterF exSecTrackLine 3 exAlbumBare [[]] = ([], false)) := by
  have h := c8_no_eager_validation exSecTrackLine exAlbumBare [[]] 3
  exact ⟨h.1, h.2.1 (by decide), h.2.2 (by decide)⟩

/-- Claim C9: `investigate` selects exactly the top-level lines whose
declared type matches the root entity (instance check), preserving
declaration order, as the initial query, and performs no I/O: its result
does not depend on the providers in any way (two coordinators with the
same query but different provider lists produce the same initial query),
and no provider function is applied in constructing it. -/
theorem c9_investigate_selects_matching (s s2 : Secretary) (t : Thing)
    (hq : s.query = s2.query) :
    s.investigate t = Investigation.mk s t
      ((s.query.filter (fun l => isinstance t.ty l.thing_type)).map
        (fun l => l.attr_path)) ∧
    (s.investigate t).query = (s2.investigate t).query := by
  constructor
  · rw [Secretary.investigate, Secretary.get_top_level_query, topLevelLines_eq]
  · show s.get_top_level_query t = s2.get_top_level_query t
    rw [Secretary.get_top_level_query, Secretary.get_top_level_query, hq]

/-- Witness for C9: same query with and without a provider installed. -/
theorem c9_investigate_selects_matching_witness :
    Secretary.investigate exSecAlbumName exAlbumBare =
      Investigation.mk exSecAlbumName exAlbumBare
        ((exSecAlbumName.query.filter
          (fun l => isinstance exAlbumBare.ty l.thing_type)).map
          (fun l => l.attr_path)) ∧
    (Secretary.investigate exSecAlbumName exAlbumBare).query =
      (Secretary.investigate exSecAlbumNameProv exAlbumBare).query :=
  c9_investigate_selects_matching exSecAlbumName exSecAlbumNameProv
    exAlbumBare rfl

/-- Claim C10: every resolution event ever emitted by an investigation
carries `False` as its first component — `Secretary.request` returns
`False` unconditionally, regardless of what any provider yielded. -/
theorem c10_event_flag_always_false (s : Secretary) (fuel : Nat) (t : Thing)
    (q : AttributeQuery) :
    ∀ ev ∈ (iterF s fuel t q).1, ev.1 = false := by
  induction fuel generalizing t q with
  | zero => intro ev hev; simp [iterF] at hev
  | succ fuel ih =>
    intro ev hev
    cases hfq : Thing.filter_query t q with
    | none => simp only [iterF, hfq] at hev; simp at hev
    | some filtered =>
      cases hr : (Secretary.request s t filtered).2 with
      | none => simp only [iterF, hfq, hr] at hev; simp at hev
      | some b =>
        simp only [iterF, hfq, hr, List.mem_cons] at hev
        rcases hev with rfl | hev
        · exact request_result_false s t filtered b hr
        · obtain ⟨x, hx, hevx⟩ := catUntilAbort_mem _ ev hev
          obtain ⟨g, hgmem, rfl⟩ := List.mem_map.mp hx
          obtain ⟨ts, hg, c, hc, hevc⟩ := subsRun_mem _ t g ev hevx
          exact ih c g.2 ev hevc

/-- Witness for C10: the single event of a concrete dispatch (where the
provider did yield a result) has flag `False`. -/
theorem c10_event_flag_always_false_witness :
    ((false, exAlbumBare, [["name"]]) : InvestigationResult).1 = false :=
  c10_event_flag_always_false exSecName 1 exAlbumBare [["name"]]
    (false, exAlbumBare, [["name"]])
    (by rw [show (iterF exSecName 1 exAlbumBare [["name"]]).1 =
          [(false, exAlbumBare, [["name"]])] from rfl]
        exact List.mem_singleton.mpr rfl)
